import Mathlib

/-
Verification of the zsr reading-statistics pipeline.

The embedding follows the pandas 1.x semantics the scripts were written
against: Series.str.replace defaults to regex=True (zsr.py strips the
year_completed float artifact and progress_plots.py strips the isbn float
artifact relying on that default), and pd.to_datetime with an explicit
format runs the strptime-style exact matcher (no whitespace tolerance).

Dates are modelled as civil (year, month, day) triples; pandas Timestamps
are day counters, embedded through the standard days-from-civil algorithm
(daysFromCivil below). Timestamp comparison and subtraction are ordinal
comparison and subtraction.
-/

namespace Zsr

/-- A calendar date as parsed from a YYYY-MM-DD string. -/
structure Date where
  year : Int
  month : Int
  day : Int
deriving DecidableEq, Repr

/-- Whether a civil year is a leap year (Gregorian rule). -/
def isLeap (y : Int) : Bool :=
  (y % 4 == 0 && y % 100 != 0) || (y % 400 == 0)

/-- Number of days in a civil month. -/
def daysInMonth (y m : Int) : Int :=
  if m = 2 then (if isLeap y then 29 else 28)
  else if m = 4 ∨ m = 6 ∨ m = 9 ∨ m = 11 then 30
  else 31

/-- A structurally valid civil date. -/
def DateValid (d : Date) : Prop :=
  1 ≤ d.month ∧ d.month ≤ 12 ∧ 1 ≤ d.day ∧ d.day ≤ daysInMonth d.year d.month

instance (d : Date) : Decidable (DateValid d) := by
  unfold DateValid; infer_instance

/-- Days since 1970-01-01 of a civil date (standard days-from-civil
algorithm, extended to all integers with floor division; on Int the slash
is Euclidean division, which agrees with floor division for the positive
constant divisors used here). This is the day counter a pandas Timestamp
holds for a parsed YYYY-MM-DD value; Timestamp order, equality and
subtraction are order, equality and subtraction of this counter. -/
def daysFromCivil (dd : Date) : Int :=
  let y : Int := dd.year - (if dd.month ≤ 2 then 1 else 0)
  let era : Int := y / 400
  let yoe : Int := y - era * 400
  let mp : Int := dd.month + (if 2 < dd.month then (-3) else 9)
  let doy : Int := (153 * mp + 2) / 5 + dd.day - 1
  let doe : Int := yoe * 365 + yoe / 4 - yoe / 100 + doy
  era * 146097 + doe - 719468

/-- Decimal digit characters. -/
def isDigitCh (c : Char) : Bool := 48 ≤ c.toNat && c.toNat ≤ 57

/-- Numeric value of a digit character. -/
def digitVal (c : Char) : Int := (c.toNat : Int) - 48

/-- The whitespace characters Python str.strip and str.isspace recognise
in the ASCII range. -/
def isSpaceCh (c : Char) : Bool :=
  c == ' ' || c == '\t' || c == '\n' || c == '\r' || c == '\x0b' || c == '\x0c'

/-- The strptime-style exact match of the %Y-%m-%d format on a character
list: the whole input must match the format (no surrounding whitespace is
tolerated), and the resulting calendar date must exist (a day beyond the
length of the month fails). The embedding fixes the field widths to the
10-character YYYY-MM-DD shape the exports use. -/
def parseDateChars (l : List Char) : Option Date :=
  match l with
  | [y1, y2, y3, y4, h1, m1, m2, h2, d1, d2] =>
    if isDigitCh y1 && isDigitCh y2 && isDigitCh y3 && isDigitCh y4 &&
        (h1 == '-') && isDigitCh m1 && isDigitCh m2 && (h2 == '-') &&
        isDigitCh d1 && isDigitCh d2 then
      let y := 1000 * digitVal y1 + 100 * digitVal y2 + 10 * digitVal y3 + digitVal y4
      let m := 10 * digitVal m1 + digitVal m2
      let d := 10 * digitVal d1 + digitVal d2
      if 1 ≤ m ∧ m ≤ 12 ∧ 1 ≤ d ∧ d ≤ daysInMonth y m then some ⟨y, m, d⟩ else none
    else none
  | _ => none

/-- pd.to_datetime with format %Y-%m-%d under pandas 1.x on one cell
value. -/
def parseDate (s : String) : Option Date := parseDateChars s.data

/-- Python str.strip: remove leading and trailing whitespace. -/
def pyStrip (s : String) : String :=
  ⟨((s.data.dropWhile isSpaceCh).reverse.dropWhile isSpaceCh).reverse⟩

/-- pd.to_datetime(col, format, errors="coerce") on one cell: a missing
value stays missing, a parse failure becomes NaT (none). -/
def toDatetimeCoerce : Option String → Option Date
  | none => none
  | some s => parseDate s

/-- pd.to_datetime(col, format, errors="raise") on one cell: a missing
value passes through as NaT, a parse failure raises. -/
def toDatetimeRaise : Option String → Except String (Option Date)
  | none => .ok none
  | some s =>
    match parseDate s with
    | some d => .ok (some d)
    | none => .error ("time data " ++ s ++ " does not match format")

/-- The character of one decimal digit. -/
def digitChar : Nat → Char
  | 0 => '0' | 1 => '1' | 2 => '2' | 3 => '3' | 4 => '4'
  | 5 => '5' | 6 => '6' | 7 => '7' | 8 => '8' | _ => '9'

/-- Fuel-based decimal rendering of a natural number, least significant
digit peeled off last; mirrors the decimal repr Python and pandas print. -/
def natStrAux : Nat → Nat → List Char
  | 0, _ => []
  | fuel + 1, n =>
    if n < 10 then [digitChar n]
    else natStrAux fuel (n / 10) ++ [digitChar (n % 10)]

/-- Decimal rendering of a natural number. -/
def natStr (n : Nat) : List Char := natStrAux (n + 1) n

/-- Decimal rendering of an integer. -/
def intStr (n : Int) : List Char :=
  if n < 0 then '-' :: natStr (-n).toNat else natStr n.toNat

/-- A raw CSV cell of an ISBN-like column as pandas types it: an int64
value, a float64 value (the column is floated when missing values are
present; for ISBN magnitudes the value is integral and exact), a free
string in an object column, or NaN for a missing value. -/
inductive IsbnCell where
  | intC (n : Int)
  | floatC (n : Int)
  | strC (s : String)
  | nanC
deriving DecidableEq, Repr

/-- astype(str) of a raw cell: ints render as digits, an integral float64
renders as the digits followed by .0, a string is unchanged, NaN renders
as the string nan. -/
def astypeStr : IsbnCell → String
  | .intC n => ⟨intStr n⟩
  | .floatC n => ⟨intStr n ++ ['.', '0']⟩
  | .strC s => s
  | .nanC => "nan"

/-- Series.str.replace with the anchored pattern for a trailing .0 under
the pandas 1.x regex default: removes one trailing ".0" when present. -/
def stripDotZero (s : String) : String :=
  match s.data.reverse with
  | '0' :: '.' :: rest => ⟨rest.reverse⟩
  | _ => s

/-- Whether a string still carries a trailing ".0". -/
def hasDotZeroSuffix (s : String) : Bool :=
  match s.data.reverse with
  | '0' :: '.' :: _ => true
  | _ => false

/-- The isbn13 normalization of clean_data (zsr_plots.py) and
progress_plots.py: astype(str) then strip a trailing .0. -/
def cleanIsbn (c : IsbnCell) : String := stripDotZero (astypeStr c)

/-- A valid source isbn13 cell: numeric, missing, or a textual ISBN made
of digits, hyphens and the ISBN-10 check character X. -/
def validIsbnCell : IsbnCell → Bool
  | .strC s => s.data.all (fun c => c.isDigit || c == '-' || c == 'X')
  | _ => true

/-- A raw CSV cell of the length column as pandas types it. -/
inductive LenCell where
  | intL (n : Int)
  | floatL (q : ℚ)
  | strL (s : String)
  | nanL
deriving DecidableEq, Repr

/-- Truncation toward zero, the behaviour of the Python int() cast on a
float. -/
def truncRat (q : ℚ) : Int := if 0 ≤ q then ⌊q⌋ else -⌊-q⌋

/-- Digits-only parse of a character list. -/
def parseNatDigits (l : List Char) : Option Nat :=
  if l ≠ [] ∧ l.all isDigitCh then
    some (l.foldl (fun a c => 10 * a + (c.toNat - 48)) 0)
  else none

/-- The Python int() cast on a string: strip surrounding whitespace, allow
one sign, then require at least one digit; anything else raises. -/
def pyParseInt (s : String) : Option Int :=
  match (pyStrip s).data with
  | '-' :: rest => (parseNatDigits rest).map (fun n => -(n : Int))
  | '+' :: rest => (parseNatDigits rest).map (fun n => (n : Int))
  | rest => (parseNatDigits rest).map (fun n => (n : Int))

/-- Series.fillna(0) on one cell. -/
def fillna0 : LenCell → LenCell
  | .nanL => .intL 0
  | c => c

/-- Series.astype(int) on one cell: ints pass through, floats truncate
toward zero, strings go through the Python int() cast and raise when it
fails, NaN raises. -/
def astypeInt : LenCell → Except String Int
  | .intL n => .ok n
  | .floatL q => .ok (truncRat q)
  | .strL s =>
    match pyParseInt s with
    | some n => .ok n
    | none => .error ("invalid literal for int with base 10: " ++ s)
  | .nanL => .error "cannot convert NaN to integer"

/-- The length coercion of zsr.py line 53: fillna(0).astype(int). -/
def lengthCoerce (c : LenCell) : Except String Int := astypeInt (fillna0 c)

/-- A raw catalog row after concatenation, restricted to the columns the
zsr.py cleanup section reads or writes. -/
structure RawCatRow where
  title : String
  creators : Option String
  status : Option String
  length : LenCell
  publish_date : Option String
  began : Option String
  completed : Option String
  added : Option String
deriving DecidableEq, Repr

/-- A normalized catalog row (after zsr.py lines 53-60). -/
structure CatRowN where
  title : String
  creators : Option String
  status : Option String
  length : Int
  publish_date : Option Date
  began : Option Date
  completed : Option Date
  added : Option Date
deriving DecidableEq, Repr

/-- The zsr.py cleanup of one catalog row, lines 53-60: cast length with
fillna(0).astype(int), parse the four date columns with errors coerce,
and strip whitespace from status. -/
def zsrNormalize (r : RawCatRow) : Except String CatRowN :=
  match lengthCoerce r.length with
  | .error e => .error e
  | .ok len =>
    .ok { title := r.title
          creators := r.creators
          status := r.status.map pyStrip
          length := len
          publish_date := toDatetimeCoerce r.publish_date
          began := toDatetimeCoerce r.began
          completed := toDatetimeCoerce r.completed
          added := toDatetimeCoerce r.added }

/-- The hard-coded length corrections of zsr.py lines 63-90, in source
order: each line assigns a page count to the rows whose title matches
exactly. -/
def zsrLengthCorrections : List (String × Int) :=
  [ ("The Collected Works, Vol. 8", 1251)
  , ("Upheavals of Thought: The Intelligence of Emotions", 751)
  , ("Political Liberalism", 464)
  , ("The Ethnic Origins of Nations", 312)
  , ("Montesquieu And Rousseau: Forerunners Of Sociology", 155)
  , ("Truth and Method. Second, Revised Edition.", 594)
  , ("The Last Unicorn (Deluxe Edition)", 289)
  , ("The Dream Machine", 527)
  , ("The Revolt of the Public", 448)
  , ("The Art of Doing Science and Engineering", 432)
  , ("August", 304)
  , ("American Poetry: The Nineteenth Century. Volumes I &amp; II. [2 volumes. Vol. 1: Philip Freneau to Walt Whitman. Vol. 2: Herman Melville to Stickney; American Indian Poetry; Folk Songs and Spirituals]", 1050)
  , ("American Earth: Environmental Writing Since Thoreau", 1047)
  , ("Harry Potter and the Order of the Phoenix", 896)
  , ("In the Shadow of Tomorrow", 167)
  , ("Pieces of the Action", 376)
  , ("Kenogaia (a Gnostic Tale)", 432)
  , ("The Org: How The Office Really Works", 320)
  , ("Grand Hotel Abyss", 336)
  , ("We Have Never Been Modern", 157)
  , ("Snow", 320)
  , ("Courage to Grow", 224)
  , ("In Praise of Older Women The Amorous Recollections of Andras Vajda by Vizinczey, Stephen ( Author ) ON Mar-04-2010, Paperback", 181)
  , ("The Collected Works of John Stuart Mill, Vol. 7", 1251)
  , ("Game Theory: A Very Short Introduction (Very Short Introductions) By Ken Binmore", 184)
  , ("Applied Mainline Economics", 167)
  , ("Introduction to IT Privacy", 271)
  , ("The Hobbit", 317) ]

/-- Apply a list of title-keyed length assignments in order: each
assignment overwrites length when the title matches exactly. -/
def applyCorr : List (String × Int) → CatRowN → CatRowN
  | [], r => r
  | c :: cs, r =>
    applyCorr cs (if r.title = c.1 then { r with length := c.2 } else r)

/-- Apply the zsr.py length corrections of lines 63-90 to one row. -/
def applyLengthCorrections (r : CatRowN) : CatRowN :=
  applyCorr zsrLengthCorrections r

/-- The missing-length diagnostic of zsr.py line 93, computed after the
corrections: the rows whose length is still 0. -/
def dfMissing (rows : List CatRowN) : List CatRowN :=
  rows.filter (fun r => r.length == 0)

/-- The duration column of zsr.py lines 101-103: with both dates set it is
the day difference plus one; with either date missing the subtraction is
NaT, .days is NaN, and round().fillna(0).astype(int) turns the row into
0. -/
def durationOf : Option Date → Option Date → Int
  | some b, some c => daysFromCivil c - daysFromCivil b + 1
  | _, _ => 0

/-- The year_completed column of zsr.py lines 106-108: the year of the
completed date rendered as a string (the float artifact a NaT row forces
on the column is stripped by the anchored replace under the pandas 1.x
regex default), or the string nan when completed is missing. -/
def yearCompletedOf : Option Date → String
  | some d => ⟨intStr d.year⟩
  | none => "nan"

/-- A catalog row with the derived columns of zsr.py lines 101-108. -/
structure CatRowD where
  title : String
  status : Option String
  length : Int
  began : Option Date
  completed : Option Date
  duration : Int
  year_completed : String
deriving DecidableEq, Repr

/-- Add the derived duration and year_completed columns to a normalized
row. -/
def deriveRow (r : CatRowN) : CatRowD :=
  { title := r.title
    status := r.status
    length := r.length
    began := r.began
    completed := r.completed
    duration := durationOf r.began r.completed
    year_completed := yearCompletedOf r.completed }

/-- Round half to even on an integer boundary, the rounding of numpy and
pandas Series.round. -/
def roundHalfEven (x : ℚ) : Int :=
  if x - ⌊x⌋ < 1 / 2 then ⌊x⌋
  else if 1 / 2 < x - ⌊x⌋ then ⌊x⌋ + 1
  else if ⌊x⌋ % 2 = 0 then ⌊x⌋ else ⌊x⌋ + 1

/-- Series.round(2): round half to even at two decimal places. -/
def round2 (x : ℚ) : ℚ := (roundHalfEven (100 * x) : ℚ) / 100

/-- Order-preserving insertion into a string list. -/
def insertStr (x : String) : List String → List String
  | [] => [x]
  | y :: ys => if x ≤ y then x :: y :: ys else y :: insertStr x ys

/-- Insertion sort of a string list, ascending; models the ascending key
order pandas groupby produces. -/
def sortStrs : List String → List String
  | [] => []
  | x :: xs => insertStr x (sortStrs xs)

/-- One row of the yearly aggregates table of zsr.py lines 115-125. -/
structure AggRow where
  year : String
  count : Nat
  sum_length : Int
  avg_length : ℚ
  avg_duration : ℚ
  length_per_month : ℚ
  length_per_week : ℚ
  length_per_day : ℚ
deriving DecidableEq, Repr

/-- The df_completed filter of zsr.py line 113: status equals Completed
and year_completed differs from the nan sentinel. (The subsequent
sort_values does not affect the aggregates.) -/
def dfCompleted (rows : List CatRowD) : List CatRowD :=
  rows.filter (fun r => r.status == some "Completed" && r.year_completed != "nan")

/-- The rows of one groupby group. -/
def yearGroup (rows : List CatRowD) (k : String) : List CatRowD :=
  (dfCompleted rows).filter (fun r => r.year_completed == k)

/-- Sum of the length column over a group. -/
def sumLength (g : List CatRowD) : Int := (g.map (·.length)).sum

/-- Sum of the duration column over a group. -/
def sumDuration (g : List CatRowD) : Int := (g.map (·.duration)).sum

/-- One aggregate row as zsr.py lines 115-125 compute it: count, sum,
means and the three fixed-period rates, the five float columns rounded to
two decimals. -/
def mkAggRow (rows : List CatRowD) (k : String) : AggRow :=
  let g := yearGroup rows k
  { year := k
    count := g.length
    sum_length := sumLength g
    avg_length := round2 ((sumLength g : ℚ) / (g.length : ℚ))
    avg_duration := round2 ((sumDuration g : ℚ) / (g.length : ℚ))
    length_per_month := round2 ((sumLength g : ℚ) / 12)
    length_per_week := round2 ((sumLength g : ℚ) / 52)
    length_per_day := round2 ((sumLength g : ℚ) / 365) }

/-- The groupby keys: the distinct year_completed values of the kept rows
in ascending order. -/
def aggYears (rows : List CatRowD) : List String :=
  sortStrs ((dfCompleted rows).map (·.year_completed)).dedup

/-- The df_aggregates table of zsr.py lines 115-125. -/
def dfAggregates (rows : List CatRowD) : List AggRow :=
  (aggYears rows).map (mkAggRow rows)

/-- A raw library row as zsr_plots.py reads it, restricted to the columns
clean_data touches plus the ones plot_books_table reads. -/
structure LibRawRow where
  ean_isbn13 : IsbnCell
  title : Option String
  creators : Option String
  status : Option String
  length : Int
  began : Option String
  completed : Option String
  duration : Int
deriving DecidableEq, Repr

/-- A library row after clean_data. -/
structure LibCleanRow where
  ean_isbn13 : String
  title : String
  creators : Option String
  status : Option String
  length : Int
  began : Option Date
  completed : Option Date
  duration : Int
deriving DecidableEq, Repr

/-- A raw dailies row as zsr_plots.py reads it. -/
structure DailyRawRow where
  ean_isbn13 : IsbnCell
  title : Option String
  date : Option String
  daily_pages : ℚ
  percent_complete : ℚ
deriving DecidableEq, Repr

/-- A dailies row after clean_data. -/
structure DailyCleanRow where
  ean_isbn13 : String
  title : String
  date : Option Date
  daily_pages : ℚ
  percent_complete : ℚ
deriving DecidableEq, Repr

/-- The clean_data effect on one library row (zsr_plots.py lines 55-60):
normalize the isbn string, fill a missing title with the empty string,
and parse began and completed with errors raise, so an unparsable date
aborts. -/
def cleanLibRow (r : LibRawRow) : Except String LibCleanRow :=
  match toDatetimeRaise r.began with
  | .error e => .error e
  | .ok b =>
    match toDatetimeRaise r.completed with
    | .error e => .error e
    | .ok c =>
      .ok { ean_isbn13 := cleanIsbn r.ean_isbn13
            title := r.title.getD ""
            creators := r.creators
            status := r.status
            length := r.length
            began := b
            completed := c
            duration := r.duration }

/-- The clean_data effect on one dailies row (zsr_plots.py lines 56-61):
normalize the isbn string, fill a missing title, and parse the date with
errors coerce, so an unparsable date degrades to NaT. -/
def cleanDailyRow (r : DailyRawRow) : DailyCleanRow :=
  { ean_isbn13 := cleanIsbn r.ean_isbn13
    title := r.title.getD ""
    date := toDatetimeCoerce r.date
    daily_pages := r.daily_pages
    percent_complete := r.percent_complete }

/-- clean_data over the library table; errors raise aborts on the first
unparsable began or completed value. -/
def cleanLib (rows : List LibRawRow) : Except String (List LibCleanRow) :=
  rows.mapM cleanLibRow

/-- clean_data over the dailies table. -/
def cleanDailies (rows : List DailyRawRow) : List DailyCleanRow :=
  rows.map cleanDailyRow

/-- clean_data of zsr_plots.py lines 54-63 as a state transformer: Python
mutates both dataframes in place, so the post-state pair carries the two
cleaned tables the caller observes through aliasing; the last component is
the value of the first return statement (the library frame). The second
return statement of the source is past the first and never executes. -/
def cleanData (lib : List LibRawRow) (dl : List DailyRawRow) :
    Except String ((List LibCleanRow × List DailyCleanRow) × List LibCleanRow) :=
  match cleanLib lib with
  | .error e => .error e
  | .ok lib2 => .ok ((lib2, cleanDailies dl), lib2)

/-- The year filter of plot_reading_heatmap line 135: keep the dailies
rows whose parsed date falls in the given year (a NaT date never
matches). -/
def heatmapFiltered (sessions : List DailyCleanRow) (y : Int) : List DailyCleanRow :=
  sessions.filter (fun s =>
    match s.date with
    | some dd => dd.year == y
    | none => false)

/-- The per-date points of the filtered table, keyed by the day counter of
the date. -/
def heatmapPoints (sessions : List DailyCleanRow) (y : Int) : List (Int × ℚ) :=
  (heatmapFiltered sessions y).filterMap
    (fun s => s.date.map (fun dd => (daysFromCivil dd, s.daily_pages)))

/-- groupby date sum combined with the left merge and fillna(0) of
plot_reading_heatmap lines 138-149: the pages total for one calendar day,
zero when the day has no session. -/
def sumPagesAt (pts : List (Int × ℚ)) (d : Int) : ℚ :=
  ((pts.filter (fun p => p.1 == d)).map (·.2)).sum

/-- The list of n consecutive integers starting at lo. -/
def intRangeFrom (lo : Int) : Nat → List Int
  | 0 => []
  | n + 1 => lo :: intRangeFrom (lo + 1) n

/-- The full calendar range of the year, Jan 1 through Dec 31, as day
counters (pd.date_range of lines 141-143). -/
def yearRangeDays (y : Int) : List Int :=
  intRangeFrom (daysFromCivil ⟨y, 1, 1⟩)
    (daysFromCivil ⟨y, 12, 31⟩ - daysFromCivil ⟨y, 1, 1⟩ + 1).toNat

/-- The gap-filled calendar table of plot_reading_heatmap lines 141-149:
one row per calendar day of the year, carrying the summed daily pages,
zero-filled for days with no activity. -/
def heatmapCal (sessions : List DailyCleanRow) (y : Int) : List (Int × ℚ) :=
  (yearRangeDays y).map (fun d => (d, sumPagesAt (heatmapPoints sessions y) d))

/-- Modelled from the spec: the build_daily_progress step of the
Derivation Engine that computes percent_complete from a session end_page
and the matched Catalog length is not under src (the dailies table the
scripts read arrives with percent_complete precomputed). Spec section 3
gives percent_complete = end_page / length * 100 rounded to two decimals,
and section 4.3 requires a zero length to yield the defined fallback 0
instead of an unrepresentable value. -/
def percentComplete (endPage length : Int) : ℚ :=
  if length = 0 then 0 else round2 ((endPage : ℚ) / (length : ℚ) * 100)

/-- A concrete raw catalog row whose began value does not parse. -/
def c1Row : RawCatRow :=
  { title := "Example A", creators := none, status := some "Completed",
    length := .intL 100, publish_date := none,
    began := some "2023-02-30", completed := some "2023-03-05", added := none }

/-- What zsr.py produces for c1Row. -/
def c1Normalized : CatRowN :=
  { title := "Example A", creators := none, status := some "Completed",
    length := 100, publish_date := none, began := none,
    completed := some ⟨2023, 3, 5⟩, added := none }

/-- A concrete normalized row with both reading dates set. -/
def c2Row : CatRowN :=
  { title := "Example B", creators := none, status := some "Completed",
    length := 300, publish_date := none, began := some ⟨2023, 1, 1⟩,
    completed := some ⟨2023, 1, 10⟩, added := none }

/-- The scenario input of the spec: two source collections each
contributing one Completed book with length 300, began 2023-01-01 and
completed 2023-01-10. -/
def c3ScenarioRaw : List RawCatRow :=
  [ { title := "Book One", creators := none, status := some "Completed",
      length := .intL 300, publish_date := none,
      began := some "2023-01-01", completed := some "2023-01-10", added := none }
  , { title := "Book Two", creators := none, status := some "Completed",
      length := .intL 300, publish_date := none,
      began := some "2023-01-01", completed := some "2023-01-10", added := none } ]

/-- The scenario rows pushed through the zsr.py pipeline: cleanup, length
corrections, derived columns. -/
def c3ScenarioCat : List CatRowD :=
  match c3ScenarioRaw.mapM zsrNormalize with
  | .ok l => (l.map applyLengthCorrections).map deriveRow
  | .error _ => []

/-- A concrete cleaned dailies row on 2023-03-05. -/
def c4Row1 : DailyCleanRow :=
  { ean_isbn13 := "9780316769488", title := "Book One",
    date := some ⟨2023, 3, 5⟩, daily_pages := 10, percent_complete := 5 }

/-- A concrete cleaned dailies row on 2023-03-08. -/
def c4Row2 : DailyCleanRow :=
  { ean_isbn13 := "9780316769488", title := "Book One",
    date := some ⟨2023, 3, 8⟩, daily_pages := 20, percent_complete := 12 }

/-- Two concrete cleaned dailies rows in March 2023 with gap days
between them. -/
def c4Sessions : List DailyCleanRow := [c4Row1, c4Row2]

/-- A concrete normalized row whose title matches a length correction and
whose raw length is 0. -/
def c8Row : CatRowN :=
  { title := "The Hobbit", creators := none, status := some "Completed",
    length := 0, publish_date := none, began := none, completed := none,
    added := none }

/-- A concrete raw catalog row whose began value carries leading
whitespace and whose status carries surrounding whitespace. -/
def c9Row : RawCatRow :=
  { title := "Example C", creators := none, status := some " Completed ",
    length := .intL 200, publish_date := none, began := some " 2023-01-05",
    completed := some "2023-01-06", added := none }

/-- What zsr.py produces for c9Row. -/
def c9Normalized : CatRowN :=
  { title := "Example C", creators := none, status := some "Completed",
    length := 200, publish_date := none, began := none,
    completed := some ⟨2023, 1, 6⟩, added := none }

/-- A concrete raw dailies row whose date value has no thirteenth
month. -/
def c1DailyRaw : DailyRawRow :=
  { ean_isbn13 := IsbnCell.nanC, title := none,
    date := some "2023-13-01", daily_pages := 0, percent_complete := 0 }

/-- A concrete raw dailies row. -/
def c10DailyRaw : DailyRawRow :=
  { ean_isbn13 := .floatC 9780316769488, title := none,
    date := some "2023-03-05", daily_pages := 10, percent_complete := 50 }

/-- The cleaned form of c10DailyRaw. -/
def c10DailyClean : DailyCleanRow :=
  { ean_isbn13 := "9780316769488", title := "",
    date := some ⟨2023, 3, 5⟩, daily_pages := 10, percent_complete := 50 }

/-- Every day of a civil year sits between Jan 1 and Dec 31 of that year
on the day-counter axis (for any month in 1..12 and day in 1..31). -/
theorem daysFromCivil_year_bounds (y m d : Int) (h1 : 1 ≤ m) (h2 : m ≤ 12)
    (h3 : 1 ≤ d) (h4 : d ≤ 31) :
    daysFromCivil ⟨y, 1, 1⟩ ≤ daysFromCivil ⟨y, m, d⟩ ∧
    daysFromCivil ⟨y, m, d⟩ ≤ daysFromCivil ⟨y, 12, 31⟩ := by
  simp only [daysFromCivil]
  norm_num
  rcases le_or_lt m 2 with hm | hm
  · have hm2 : ¬ (2 < m) := by omega
    simp only [if_pos hm, if_neg hm2]
    omega
  · have hm2 : ¬ (m ≤ 2) := by omega
    simp only [if_neg hm2, if_pos hm]
    omega

/-- No month has more than 31 days. -/
theorem daysInMonth_le_31 (y m : Int) : daysInMonth y m ≤ 31 := by
  unfold daysInMonth
  split
  · split <;> norm_num
  · split <;> norm_num

/-- C2. For every catalog row with both began and completed set, the
derived duration equals the day difference plus one and is at least 1
when completed is on or after began; for every row missing began or
completed, the derived duration equals 0. -/
theorem c2_duration_spec (r : CatRowN) :
    (∀ b c, r.began = some b → r.completed = some c →
      (deriveRow r).duration = daysFromCivil c - daysFromCivil b + 1 ∧
      (daysFromCivil b ≤ daysFromCivil c → 1 ≤ (deriveRow r).duration)) ∧
    ((r.began = none ∨ r.completed = none) → (deriveRow r).duration = 0) := by
  constructor
  · intro b c hb hc
    have hd : (deriveRow r).duration = daysFromCivil c - daysFromCivil b + 1 := by
      simp [deriveRow, durationOf, hb, hc]
    exact ⟨hd, fun hle => by rw [hd]; omega⟩
  · intro h
    have hd : (deriveRow r).duration = durationOf r.began r.completed := rfl
    rcases h with h | h
    · rw [hd, h]; cases r.completed <;> rfl
    · rw [hd, h]; cases r.began <;> rfl

/-- C2 witness at a concrete row. -/
theorem c2_duration_witness :
    (deriveRow c2Row).duration =
      daysFromCivil ⟨2023, 1, 10⟩ - daysFromCivil ⟨2023, 1, 1⟩ + 1 ∧
    1 ≤ (deriveRow c2Row).duration :=
  ⟨((c2_duration_spec c2Row).1 ⟨2023, 1, 1⟩ ⟨2023, 1, 10⟩ rfl rfl).1,
   ((c2_duration_spec c2Row).1 ⟨2023, 1, 1⟩ ⟨2023, 1, 10⟩ rfl rfl).2 (by decide)⟩

/-- Round half to even stays inside integer bounds. -/
theorem roundHalfEven_bounds {x : ℚ} {a b : Int} (h1 : (a : ℚ) ≤ x)
    (h2 : x ≤ (b : ℚ)) : a ≤ roundHalfEven x ∧ roundHalfEven x ≤ b := by
  have hfa : a ≤ ⌊x⌋ := Int.le_floor.mpr h1
  have hfb : ⌊x⌋ ≤ b := by
    have := Int.floor_le_floor h2
    simpa using this
  have hflo : (⌊x⌋ : ℚ) ≤ x := Int.floor_le x
  constructor
  · unfold roundHalfEven
    split
    · exact hfa
    · split
      · omega
      · split <;> omega
  · unfold roundHalfEven
    split
    · exact hfb
    · rename_i hlt
      push_neg at hlt
      split
      · rename_i hgt
        have hxb : (⌊x⌋ : ℚ) + 1 / 2 < x := by linarith
        have : (⌊x⌋ : ℚ) < (b : ℚ) := by linarith
        have : ⌊x⌋ < b := by exact_mod_cast this
        omega
      · rename_i hgt
        push_neg at hgt
        have heq : x - (⌊x⌋ : ℚ) = 1 / 2 := le_antisymm hgt hlt
        have : (⌊x⌋ : ℚ) < (b : ℚ) := by linarith
        have hb2 : ⌊x⌋ < b := by exact_mod_cast this
        split <;> omega

/-- Series.round(2) stays inside the bounds 0 and 100. -/
theorem round2_bounds {x : ℚ} (h1 : 0 ≤ x) (h2 : x ≤ 100) :
    0 ≤ round2 x ∧ round2 x ≤ 100 := by
  have h1b : ((0 : Int) : ℚ) ≤ 100 * x := by push_cast; linarith
  have h2b : 100 * x ≤ ((10000 : Int) : ℚ) := by push_cast; linarith
  obtain ⟨hl, hu⟩ := roundHalfEven_bounds h1b h2b
  unfold round2
  constructor
  · have : (0 : ℚ) ≤ (roundHalfEven (100 * x) : ℚ) := by exact_mod_cast hl
    positivity
  · rw [div_le_iff₀ (by norm_num : (0 : ℚ) < 100)]
    have : ((roundHalfEven (100 * x) : Int) : ℚ) ≤ ((10000 : Int) : ℚ) := by
      exact_mod_cast hu
    push_cast at this ⊢
    linarith

/-- C6 (spec-modelled). percent_complete is 0 when the matched length is
0, and lies in the interval from 0 to 100 for a session whose end page is
between 0 and the book length; the zero-length guard returns the defined
fallback 0 instead of an unrepresentable value. -/
theorem c6_percent_complete_spec (e len : Int) (he : 0 ≤ e) (hel : e ≤ len) :
    (len = 0 → percentComplete e len = 0) ∧
    0 ≤ percentComplete e len ∧ percentComplete e len ≤ 100 := by
  refine ⟨fun h => by simp [percentComplete, h], ?_⟩
  by_cases hl : len = 0
  · simp [percentComplete, hl]
  · have hlen : 0 < len := by omega
    have hlenq : (0 : ℚ) < (len : ℚ) := by exact_mod_cast hlen
    have heq : (0 : ℚ) ≤ (e : ℚ) := by exact_mod_cast he
    have helq : (e : ℚ) ≤ (len : ℚ) := by exact_mod_cast hel
    have hx1 : 0 ≤ (e : ℚ) / (len : ℚ) * 100 := by positivity
    have hdiv : (e : ℚ) / (len : ℚ) ≤ 1 := (div_le_one hlenq).mpr helq
    have hx2 : (e : ℚ) / (len : ℚ) * 100 ≤ 100 := by linarith
    have := round2_bounds hx1 hx2
    simpa [percentComplete, hl] using this

/-- C6 witness at a concrete session and at a zero-length book. -/
theorem c6_percent_complete_witness :
    percentComplete 0 0 = 0 ∧
    0 ≤ percentComplete 50 200 ∧ percentComplete 50 200 ≤ 100 :=
  ⟨(c6_percent_complete_spec 0 0 (by decide) (by decide)).1 rfl,
   (c6_percent_complete_spec 50 200 (by decide) (by decide)).2⟩

/-- Digit characters are never the dot. -/
theorem digitChar_ne_dot (m : Nat) : digitChar m ≠ '.' := by
  unfold digitChar
  split <;> decide

/-- Decimal renderings of naturals contain no dot. -/
theorem mem_natStrAux_ne_dot (fuel n : Nat) (c : Char)
    (hc : c ∈ natStrAux fuel n) : c ≠ '.' := by
  induction fuel generalizing n with
  | zero => simp [natStrAux] at hc
  | succ fuel ih =>
    unfold natStrAux at hc
    split at hc
    · simp at hc
      exact hc ▸ digitChar_ne_dot n
    · rcases List.mem_append.mp hc with h | h
      · exact ih _ h
      · simp at h
        exact h ▸ digitChar_ne_dot (n % 10)

/-- Decimal renderings of integers contain no dot. -/
theorem dot_not_mem_intStr (n : Int) : '.' ∉ intStr n := by
  unfold intStr
  split <;> intro h
  · rcases List.mem_cons.mp h with h | h
    · exact absurd h (by decide)
    · exact mem_natStrAux_ne_dot _ _ '.' (by simpa [natStr] using h) rfl
  · exact mem_natStrAux_ne_dot _ _ '.' (by simpa [natStr] using h) rfl

/-- A string without a dot has no trailing ".0". -/
theorem hasDotZeroSuffix_eq_false_of_not_dot {s : String}
    (h : '.' ∉ s.data) : hasDotZeroSuffix s = false := by
  unfold hasDotZeroSuffix
  split
  · rename_i heq
    exact absurd (List.mem_reverse.mp (heq ▸ (by simp : '.' ∈ '0' :: '.' :: _))) h
  · rfl

/-- The anchored replace leaves a string without a dot unchanged. -/
theorem stripDotZero_eq_of_not_dot {s : String} (h : '.' ∉ s.data) :
    stripDotZero s = s := by
  unfold stripDotZero
  split
  · rename_i heq
    exact absurd (List.mem_reverse.mp (heq ▸ (by simp : '.' ∈ '0' :: '.' :: _))) h
  · rfl

/-- The anchored replace removes exactly the trailing ".0". -/
theorem stripDotZero_mk_append (l : List Char) :
    stripDotZero ⟨l ++ ['.', '0']⟩ = ⟨l⟩ := by
  unfold stripDotZero
  have h1 : (String.mk (l ++ ['.', '0'])).data.reverse = '0' :: '.' :: l.reverse := by
    show (l ++ ['.', '0']).reverse = '0' :: '.' :: l.reverse
    simp
  rw [h1]
  simp

/-- C5. For every valid source isbn13 cell, the normalized isbn13 is the
string produced by astype(str) followed by the anchored replace, and the
result carries no trailing ".0". -/
theorem c5_isbn_spec (c : IsbnCell) (hc : validIsbnCell c = true) :
    cleanIsbn c = stripDotZero (astypeStr c) ∧
    hasDotZeroSuffix (cleanIsbn c) = false := by
  refine ⟨rfl, ?_⟩
  cases c with
  | intC n =>
    have h : '.' ∉ (astypeStr (IsbnCell.intC n)).data := dot_not_mem_intStr n
    show hasDotZeroSuffix (stripDotZero (astypeStr (IsbnCell.intC n))) = false
    rw [stripDotZero_eq_of_not_dot h]
    exact hasDotZeroSuffix_eq_false_of_not_dot h
  | floatC n =>
    show hasDotZeroSuffix (stripDotZero ⟨intStr n ++ ['.', '0']⟩) = false
    rw [stripDotZero_mk_append]
    exact hasDotZeroSuffix_eq_false_of_not_dot (dot_not_mem_intStr n)
  | strC s =>
    have h : '.' ∉ s.data := by
      intro hm
      have hp := List.all_eq_true.mp hc '.' hm
      exact absurd hp (by decide)
    show hasDotZeroSuffix (stripDotZero s) = false
    rw [stripDotZero_eq_of_not_dot h]
    exact hasDotZeroSuffix_eq_false_of_not_dot h
  | nanC => decide

/-- C5 witness at a concrete float-typed ISBN cell. -/
theorem c5_isbn_witness :
    validIsbnCell (IsbnCell.floatC 9780316769488) = true ∧
    hasDotZeroSuffix (cleanIsbn (IsbnCell.floatC 9780316769488)) = false :=
  ⟨by decide, (c5_isbn_spec (IsbnCell.floatC 9780316769488) (by decide)).2⟩

/-- One correction step never changes the title. -/
theorem corrStep_title (r : CatRowN) (c : String × Int) :
    (if r.title = c.1 then { r with length := c.2 } else r).title = r.title := by
  split <;> rfl

/-- Applying corrections never changes the title. -/
theorem applyCorr_title (cs : List (String × Int)) (r : CatRowN) :
    (applyCorr cs r).title = r.title := by
  induction cs generalizing r with
  | nil => rfl
  | cons c cs ih =>
    show (applyCorr cs _).title = r.title
    rw [ih, corrStep_title]

/-- A row whose title matches no correction entry is left unchanged. -/
theorem applyCorr_eq_of_no_match (cs : List (String × Int)) (r : CatRowN)
    (h : ∀ c ∈ cs, r.title ≠ c.1) : applyCorr cs r = r := by
  induction cs generalizing r with
  | nil => rfl
  | cons c cs ih =>
    show applyCorr cs (if r.title = c.1 then _ else r) = r
    rw [if_neg (h c (List.mem_cons_self c cs))]
    exact ih r fun d hd => h d (List.mem_cons_of_mem c hd)

/-- With pairwise-distinct correction titles, a row matching the entry
(t, v) ends up with length v. -/
theorem applyCorr_length (cs : List (String × Int)) (r : CatRowN)
    (t : String) (v : Int) (hnd : (cs.map Prod.fst).Nodup)
    (hm : (t, v) ∈ cs) (ht : r.title = t) : (applyCorr cs r).length = v := by
  induction cs generalizing r with
  | nil => cases hm
  | cons c cs ih =>
    have hnd2 : (cs.map Prod.fst).Nodup := (List.nodup_cons.mp hnd).2
    have hnotin : c.1 ∉ cs.map Prod.fst := (List.nodup_cons.mp hnd).1
    rcases List.mem_cons.mp hm with heq | hm2
    · have hcond : r.title = c.1 := by rw [ht, ← heq]
      show (applyCorr cs (if r.title = c.1 then _ else r)).length = v
      rw [if_pos hcond]
      have hrest : ∀ d ∈ cs, ({ r with length := c.2 } : CatRowN).title ≠ d.1 := by
        intro d hd he
        have he2 : r.title = d.1 := he
        apply hnotin
        rw [← hcond, he2]
        exact List.mem_map_of_mem Prod.fst hd
      rw [applyCorr_eq_of_no_match cs _ hrest, ← heq]
    · have hne : r.title ≠ c.1 := by
        intro he
        apply hnotin
        rw [← he, ht]
        exact List.mem_map_of_mem Prod.fst hm2
      show (applyCorr cs (if r.title = c.1 then _ else r)).length = v
      rw [if_neg hne]
      exact ih r hnd2 hm2 ht

/-- C8. A catalog row whose title matches a length-correction entry ends
up with the corrected length, and never appears in the missing-length
diagnostic taken after corrections, whatever the surrounding catalog. -/
theorem c8_corrections_spec (r : CatRowN) (t : String) (v : Int)
    (hm : (t, v) ∈ zsrLengthCorrections) (ht : r.title = t) :
    (applyLengthCorrections r).length = v ∧
    ∀ rows : List CatRowN, applyLengthCorrections r ∉ dfMissing rows := by
  have hnd : (zsrLengthCorrections.map Prod.fst).Nodup := by decide
  have hv : v ≠ 0 := by
    have hall : ∀ p ∈ zsrLengthCorrections, p.2 ≠ 0 := by decide
    exact hall (t, v) hm
  have hlen : (applyLengthCorrections r).length = v :=
    applyCorr_length zsrLengthCorrections r t v hnd hm ht
  refine ⟨hlen, fun rows hmem => ?_⟩
  have := (List.mem_filter.mp hmem).2
  rw [beq_iff_eq] at this
  exact hv (hlen ▸ this)

/-- C8 witness at a concrete row with raw length 0 matching the final
correction entry. -/
theorem c8_corrections_witness :
    (applyLengthCorrections c8Row).length = 317 ∧
    applyLengthCorrections c8Row ∉ dfMissing [applyLengthCorrections c8Row] := by
  have h := c8_corrections_spec c8Row "The Hobbit" 317 (by decide) rfl
  exact ⟨h.1, h.2 [applyLengthCorrections c8Row]⟩

/-- Membership in an insertion. -/
theorem mem_insertStr {a x : String} {l : List String} :
    a ∈ insertStr x l ↔ a = x ∨ a ∈ l := by
  induction l with
  | nil => simp [insertStr]
  | cons y ys ih =>
    unfold insertStr
    split
    · simp [List.mem_cons]
    · simp only [List.mem_cons, ih]
      tauto

/-- Insertion preserves ascending order. -/
theorem pairwise_insertStr {x : String} {l : List String}
    (h : l.Pairwise (· ≤ ·)) : (insertStr x l).Pairwise (· ≤ ·) := by
  induction l with
  | nil => simp [insertStr]
  | cons y ys ih =>
    obtain ⟨hy, hys⟩ := List.pairwise_cons.mp h
    unfold insertStr
    split
    · rename_i hxy
      refine List.pairwise_cons.mpr ⟨?_, h⟩
      intro b hb
      rcases List.mem_cons.mp hb with rfl | hb
      · exact hxy
      · exact le_trans hxy (hy b hb)
    · rename_i hxy
      have hyx : y ≤ x := le_of_not_le hxy
      refine List.pairwise_cons.mpr ⟨?_, ih hys⟩
      intro b hb
      rcases mem_insertStr.mp hb with rfl | hb
      · exact hyx
      · exact hy b hb

/-- Insertion of a fresh element preserves distinctness. -/
theorem nodup_insertStr {x : String} {l : List String} (hx : x ∉ l)
    (h : l.Nodup) : (insertStr x l).Nodup := by
  induction l with
  | nil => simp [insertStr]
  | cons y ys ih =>
    obtain ⟨hyys, hys⟩ := List.nodup_cons.mp h
    unfold insertStr
    split
    · exact List.nodup_cons.mpr ⟨hx, h⟩
    · have hx2 : x ∉ ys := fun hm => hx (List.mem_cons_of_mem _ hm)
      have hxy : x ≠ y := fun he => hx (he ▸ List.mem_cons_self _ _)
      refine List.nodup_cons.mpr ⟨?_, ih hx2 hys⟩
      intro hm
      rcases mem_insertStr.mp hm with he | hm2
      · exact hxy he.symm
      · exact hyys hm2

/-- Sorting preserves membership. -/
theorem mem_sortStrs {a : String} {l : List String} :
    a ∈ sortStrs l ↔ a ∈ l := by
  induction l with
  | nil => simp [sortStrs]
  | cons x xs ih =>
    unfold sortStrs
    rw [mem_insertStr, ih]
    simp [List.mem_cons]

/-- The sort is ascending. -/
theorem pairwise_sortStrs (l : List String) : (sortStrs l).Pairwise (· ≤ ·) := by
  induction l with
  | nil => simp [sortStrs]
  | cons x xs ih => exact pairwise_insertStr ih

/-- Sorting a distinct list stays distinct. -/
theorem nodup_sortStrs {l : List String} (h : l.Nodup) : (sortStrs l).Nodup := by
  induction l with
  | nil => simp [sortStrs]
  | cons x xs ih =>
    obtain ⟨hx, hxs⟩ := List.nodup_cons.mp h
    exact nodup_insertStr (fun hm => hx (mem_sortStrs.mp hm)) (ih hxs)

/-- C3. The aggregation keeps exactly the Completed rows with a real
completion year, orders the output strictly ascending by year with no row
for a year without completions, computes the six metrics with the five
float columns rounded to two decimals, and yields the scenario row for
two Completed books of length 300 read 2023-01-01 through 2023-01-10. -/
theorem c3_aggregate_spec (rows : List CatRowD) :
    dfCompleted rows =
      rows.filter (fun r => r.status == some "Completed" && r.year_completed != "nan") ∧
    (dfAggregates rows).Pairwise (fun a b => a.year < b.year) ∧
    (∀ a ∈ dfAggregates rows,
      0 < a.count ∧
      a.count = (yearGroup rows a.year).length ∧
      a.sum_length = sumLength (yearGroup rows a.year) ∧
      a.avg_length = round2 ((sumLength (yearGroup rows a.year) : ℚ) / (a.count : ℚ)) ∧
      a.avg_duration = round2 ((sumDuration (yearGroup rows a.year) : ℚ) / (a.count : ℚ)) ∧
      a.length_per_month = round2 ((a.sum_length : ℚ) / 12) ∧
      a.length_per_week = round2 ((a.sum_length : ℚ) / 52) ∧
      a.length_per_day = round2 ((a.sum_length : ℚ) / 365)) ∧
    (∀ r ∈ dfCompleted rows, ∃ a ∈ dfAggregates rows, a.year = r.year_completed) ∧
    (aggYears c3ScenarioCat = ["2023"] ∧
      (mkAggRow c3ScenarioCat "2023").count = 2 ∧
      (mkAggRow c3ScenarioCat "2023").sum_length = 600 ∧
      (mkAggRow c3ScenarioCat "2023").avg_length = 300 ∧
      (mkAggRow c3ScenarioCat "2023").avg_duration = 10) := by
  have hsum : sumLength (yearGroup c3ScenarioCat "2023") = 600 := by decide
  have hdur : sumDuration (yearGroup c3ScenarioCat "2023") = 20 := by decide
  have hcnt : (yearGroup c3ScenarioCat "2023").length = 2 := by decide
  refine ⟨rfl, ?_, ?_, ?_, by decide, by decide, by decide, ?_, ?_⟩
  · have h1 : (aggYears rows).Pairwise (· ≤ ·) := pairwise_sortStrs _
    have h2 : (aggYears rows).Pairwise (· ≠ ·) := nodup_sortStrs (List.nodup_dedup _)
    have hpw : (aggYears rows).Pairwise (· < ·) :=
      (h1.and h2).imp fun h => lt_of_le_of_ne h.1 h.2
    exact List.pairwise_map.mpr (hpw.imp fun h => h)
  · intro a ha
    obtain ⟨k, hk, rfl⟩ := List.mem_map.mp ha
    have hkm : k ∈ (dfCompleted rows).map (·.year_completed) :=
      List.mem_dedup.mp (mem_sortStrs.mp hk)
    obtain ⟨r, hr, hyr⟩ := List.mem_map.mp hkm
    have hrg : r ∈ yearGroup rows k :=
      List.mem_filter.mpr ⟨hr, by rw [beq_iff_eq]; exact hyr⟩
    exact ⟨List.length_pos.mpr (List.ne_nil_of_mem hrg), rfl, rfl, rfl, rfl, rfl, rfl, rfl⟩
  · intro r hr
    refine ⟨mkAggRow rows r.year_completed, List.mem_map_of_mem _ ?_, rfl⟩
    exact mem_sortStrs.mpr (List.mem_dedup.mpr (List.mem_map_of_mem _ hr))
  · show round2 ((sumLength (yearGroup c3ScenarioCat "2023") : ℚ) /
        ((yearGroup c3ScenarioCat "2023").length : ℚ)) = 300
    rw [hsum, hcnt]
    norm_num [round2, roundHalfEven]
  · show round2 ((sumDuration (yearGroup c3ScenarioCat "2023") : ℚ) /
        ((yearGroup c3ScenarioCat "2023").length : ℚ)) = 10
    rw [hdur, hcnt]
    norm_num [round2, roundHalfEven]

/-- C3 witness at the scenario catalog. -/
theorem c3_aggregate_witness :
    0 < (mkAggRow c3ScenarioCat "2023").count ∧
    (mkAggRow c3ScenarioCat "2023").count = (yearGroup c3ScenarioCat "2023").length := by
  have hy : aggYears c3ScenarioCat = ["2023"] := by decide
  have hmem : mkAggRow c3ScenarioCat "2023" ∈ dfAggregates c3ScenarioCat := by
    unfold dfAggregates
    rw [hy]
    simp
  have h := (c3_aggregate_spec c3ScenarioCat).2.2.1 (mkAggRow c3ScenarioCat "2023") hmem
  exact ⟨h.1, h.2.1⟩

/-- Membership in a consecutive integer range. -/
theorem mem_intRangeFrom {d lo : Int} {n : Nat} :
    d ∈ intRangeFrom lo n ↔ lo ≤ d ∧ d < lo + n := by
  induction n generalizing lo with
  | zero => simp [intRangeFrom]
  | succ n ih =>
    simp only [intRangeFrom, List.mem_cons, ih]
    omega

/-- Membership in the calendar range of a year. -/
theorem mem_yearRangeDays {y d : Int} :
    d ∈ yearRangeDays y ↔
      daysFromCivil ⟨y, 1, 1⟩ ≤ d ∧ d ≤ daysFromCivil ⟨y, 12, 31⟩ := by
  unfold yearRangeDays
  rw [mem_intRangeFrom]
  have hle : daysFromCivil ⟨y, 1, 1⟩ ≤ daysFromCivil ⟨y, 12, 31⟩ :=
    (daysFromCivil_year_bounds y 12 31 (by norm_num) (by norm_num)
      (by norm_num) (by norm_num)).1
  rw [Int.toNat_of_nonneg (by omega)]
  omega

/-- C4. The daily-progress date axis of the heatmap table is dense: for
every calendar day d between any two session dates of the filtered table
(in particular between the minimum and the maximum), a row with date d is
present, and a day with no recorded activity carries the zero-filled
value. -/
theorem c4_heatmap_dense (sessions : List DailyCleanRow) (y d : Int)
    (sa sb : DailyCleanRow) (a b : Date)
    (hsa : sa ∈ heatmapFiltered sessions y) (hda : sa.date = some a)
    (hva : DateValid a)
    (hsb : sb ∈ heatmapFiltered sessions y) (hdb : sb.date = some b)
    (hvb : DateValid b)
    (hlo : daysFromCivil a ≤ d) (hhi : d ≤ daysFromCivil b) :
    (d, sumPagesAt (heatmapPoints sessions y) d) ∈ heatmapCal sessions y ∧
    ((∀ s ∈ heatmapFiltered sessions y, s.date.map daysFromCivil ≠ some d) →
      sumPagesAt (heatmapPoints sessions y) d = 0) := by
  have hay : a.year = y := by
    have hcond := (List.mem_filter.mp hsa).2
    rw [hda] at hcond
    exact beq_iff_eq.mp hcond
  have hby : b.year = y := by
    have hcond := (List.mem_filter.mp hsb).2
    rw [hdb] at hcond
    exact beq_iff_eq.mp hcond
  have hba := daysFromCivil_year_bounds a.year a.month a.day
    hva.1 hva.2.1 hva.2.2.1 (le_trans hva.2.2.2 (daysInMonth_le_31 _ _))
  have hbb := daysFromCivil_year_bounds b.year b.month b.day
    hvb.1 hvb.2.1 hvb.2.2.1 (le_trans hvb.2.2.2 (daysInMonth_le_31 _ _))
  have h1 : daysFromCivil ⟨y, 1, 1⟩ ≤ d := by
    rw [← hay]
    exact le_trans hba.1 hlo
  have h2 : d ≤ daysFromCivil ⟨y, 12, 31⟩ := by
    rw [← hby]
    exact le_trans hhi hbb.2
  have hdmem : d ∈ yearRangeDays y := mem_yearRangeDays.mpr ⟨h1, h2⟩
  refine ⟨List.mem_map.mpr ⟨d, hdmem, rfl⟩, fun h0 => ?_⟩
  have hfe : (heatmapPoints sessions y).filter (fun p => p.1 == d) = [] := by
    apply List.filter_eq_nil_iff.mpr
    intro p hp
    obtain ⟨s, hs, hmap⟩ := List.mem_filterMap.mp hp
    cases hd2 : s.date with
    | none => rw [hd2] at hmap; simp at hmap
    | some dd =>
      rw [hd2] at hmap
      simp at hmap
      have hne := h0 s hs
      rw [hd2] at hne
      simp at hne
      rw [← hmap]
      simp only [beq_iff_eq]
      exact hne
  unfold sumPagesAt
  rw [hfe]
  rfl

/-- C4 witness: with sessions on 2023-03-05 and 2023-03-08, the gap day
2023-03-06 has a row in the calendar table and its pages value is 0. -/
theorem c4_heatmap_witness :
    (daysFromCivil ⟨2023, 3, 6⟩,
      sumPagesAt (heatmapPoints c4Sessions 2023) (daysFromCivil ⟨2023, 3, 6⟩)) ∈
        heatmapCal c4Sessions 2023 ∧
    sumPagesAt (heatmapPoints c4Sessions 2023) (daysFromCivil ⟨2023, 3, 6⟩) = 0 := by
  have hsa : c4Row1 ∈ heatmapFiltered c4Sessions 2023 :=
    List.mem_filter.mpr ⟨List.mem_cons_self _ _, by decide⟩
  have hsb : c4Row2 ∈ heatmapFiltered c4Sessions 2023 :=
    List.mem_filter.mpr ⟨by simp [c4Sessions], by decide⟩
  have h := c4_heatmap_dense c4Sessions 2023 (daysFromCivil ⟨2023, 3, 6⟩)
    c4Row1 c4Row2 ⟨2023, 3, 5⟩ ⟨2023, 3, 8⟩ hsa rfl (by decide) hsb rfl (by decide)
    (by decide) (by decide)
  refine ⟨h.1, h.2 ?_⟩
  intro s hs
  have hs2 : s ∈ c4Sessions := (List.mem_filter.mp hs).1
  rcases List.mem_cons.mp hs2 with rfl | hs3
  · decide
  · rcases List.mem_cons.mp hs3 with rfl | hs4
    · decide
    · cases hs4

/-- A whitespace character is not a digit character. -/
theorem isDigitCh_eq_false_of_space {c : Char} (h : isSpaceCh c = true) :
    isDigitCh c = false := by
  simp only [isSpaceCh, Bool.or_eq_true, beq_iff_eq] at h
  rcases h with ((((h | h) | h) | h) | h) | h <;> subst h <;> rfl

/-- The exact %Y-%m-%d match fails on a leading whitespace character. -/
theorem parseDateChars_leading {c : Char} {cs : List Char}
    (hc : isSpaceCh c = true) : parseDateChars (c :: cs) = none := by
  have hdig := isDigitCh_eq_false_of_space hc
  rcases cs with _ | ⟨a2, _ | ⟨a3, _ | ⟨a4, _ | ⟨a5, _ | ⟨a6, _ | ⟨a7, _ | ⟨a8,
    _ | ⟨a9, _ | ⟨a10, _ | ⟨a11, rest⟩⟩⟩⟩⟩⟩⟩⟩⟩⟩ <;>
    simp [parseDateChars, hdig]

/-- The exact %Y-%m-%d match fails on a trailing whitespace character. -/
theorem parseDateChars_trailing {l : List Char} {c : Char} {cs : List Char}
    (hd : l.reverse = c :: cs) (hc : isSpaceCh c = true) :
    parseDateChars l = none := by
  have hdig := isDigitCh_eq_false_of_space hc
  rcases l with _ | ⟨a1, _ | ⟨a2, _ | ⟨a3, _ | ⟨a4, _ | ⟨a5, _ | ⟨a6, _ | ⟨a7,
    _ | ⟨a8, _ | ⟨a9, _ | ⟨a10, _ | ⟨a11, rest⟩⟩⟩⟩⟩⟩⟩⟩⟩⟩⟩ <;>
    first
    | rfl
    | (simp at hd
       obtain ⟨rfl, -⟩ := hd
       simp [parseDateChars, hdig])

/-- C9 counterexample. zsr.py strips whitespace from status, but began is
parsed untrimmed: a began value with leading whitespace coerces to null
even though its trimmed form parses. -/
theorem c9_whitespace_counterexample :
    zsrNormalize c9Row = Except.ok c9Normalized ∧
    c9Normalized.began = none ∧
    parseDate (pyStrip " 2023-01-05") = some ⟨2023, 1, 5⟩ :=
  ⟨rfl, rfl, by decide⟩

/-- C9 as amended. Normalization strips whitespace from status only;
began and completed are parsed without trimming, and a date value with a
leading or trailing whitespace character fails the exact-format parse and
coerces to null. -/
theorem c9_whitespace_amended :
    (∀ r : RawCatRow, ∀ r2 : CatRowN, zsrNormalize r = .ok r2 →
      r2.status = r.status.map pyStrip) ∧
    (∀ s : String, ∀ c cs, s.data = c :: cs → isSpaceCh c = true →
      toDatetimeCoerce (some s) = none) ∧
    (∀ s : String, ∀ c cs, s.data.reverse = c :: cs → isSpaceCh c = true →
      toDatetimeCoerce (some s) = none) := by
  refine ⟨?_, ?_, ?_⟩
  · intro r r2 h
    cases hl : lengthCoerce r.length with
    | error e => unfold zsrNormalize at h; rw [hl] at h; simp at h
    | ok len =>
      unfold zsrNormalize at h
      rw [hl] at h
      simp at h
      rw [← h]
  · intro s c cs hd hc
    show parseDateChars s.data = none
    rw [hd]
    exact parseDateChars_leading hc
  · intro s c cs hd hc
    show parseDateChars s.data = none
    exact parseDateChars_trailing hd hc

/-- C9 witness: surrounding whitespace defeats the date parse on both
sides. -/
theorem c9_whitespace_witness :
    toDatetimeCoerce (some " 2023-01-07") = none ∧
    toDatetimeCoerce (some "2023-01-07 ") = none := by
  constructor
  · exact c9_whitespace_amended.2.1 " 2023-01-07" ' ' "2023-01-07".data
      (by decide) (by decide)
  · exact c9_whitespace_amended.2.2 "2023-01-07 " ' ' "2023-01-07".data.reverse
      (by decide) (by decide)

/-- C1 counterexample. In the zsr.py catalog normalization an unparsable
began value does not raise: the run succeeds and the row silently gets a
null began. -/
theorem c1_coerce_counterexample :
    zsrNormalize c1Row = Except.ok c1Normalized ∧ c1Normalized.began = none :=
  ⟨rfl, rfl⟩

/-- C1 as amended. In zsr.py all four date columns coerce parse failures
to null without raising; only clean_data of zsr_plots.py raises on an
unparsable began or completed (aborting that run), while the dailies date
column coerces to null there. -/
theorem c1_dates_amended (s : String) (hs : parseDate s = none) :
    toDatetimeCoerce (some s) = none ∧
    (∀ lr : LibRawRow, lr.began = some s → ∃ m, cleanLibRow lr = .error m) ∧
    (∀ lr : LibRawRow, lr.completed = some s → ∃ m, cleanLibRow lr = .error m) ∧
    (∀ dr : DailyRawRow, dr.date = some s → (cleanDailyRow dr).date = none) ∧
    (∀ r : RawCatRow, ∀ r2 : CatRowN, zsrNormalize r = .ok r2 →
      r2.publish_date = toDatetimeCoerce r.publish_date ∧
      r2.began = toDatetimeCoerce r.began ∧
      r2.completed = toDatetimeCoerce r.completed ∧
      r2.added = toDatetimeCoerce r.added) := by
  refine ⟨by simp [toDatetimeCoerce, hs], ?_, ?_, ?_, ?_⟩
  · intro lr h
    exact ⟨"time data " ++ s ++ " does not match format",
      by simp [cleanLibRow, h, toDatetimeRaise, hs]⟩
  · intro lr h
    cases hb : toDatetimeRaise lr.began with
    | error m => exact ⟨m, by simp [cleanLibRow, hb]⟩
    | ok ob =>
      refine ⟨"time data " ++ s ++ " does not match format", ?_⟩
      unfold cleanLibRow
      rw [hb, h]
      simp [toDatetimeRaise, hs]
  · intro dr h
    simp [cleanDailyRow, h, toDatetimeCoerce, hs]
  · intro r r2 h
    cases hl : lengthCoerce r.length with
    | error e => unfold zsrNormalize at h; rw [hl] at h; simp at h
    | ok len =>
      unfold zsrNormalize at h
      rw [hl] at h
      simp at h
      rw [← h]
      exact ⟨rfl, rfl, rfl, rfl⟩

/-- C1 witness at a month that does not exist. -/
theorem c1_dates_witness :
    toDatetimeCoerce (some "2023-13-01") = none ∧
    (cleanDailyRow c1DailyRaw).date = none := by
  have h := c1_dates_amended "2023-13-01" (by decide)
  exact ⟨h.1, h.2.2.2.1 c1DailyRaw rfl⟩

/-- C7 counterexample. fillna(0).astype(int) raises on an unparsable
length instead of mapping it to 0, and preserves a negative raw length
instead of enforcing non-negativity. -/
theorem c7_length_counterexample :
    lengthCoerce (LenCell.strL "N/A") =
      Except.error "invalid literal for int with base 10: N/A" ∧
    lengthCoerce (LenCell.intL (-5)) = Except.ok (-5) :=
  ⟨rfl, rfl⟩

/-- C7 as amended. The length coercion maps a missing value to 0, passes
integers through unchanged (negative values included), truncates float
values toward zero, and raises on a string the int() cast cannot parse
rather than mapping it to 0. -/
theorem c7_length_amended (c : LenCell) :
    (c = LenCell.nanL → lengthCoerce c = .ok 0) ∧
    (∀ n, c = LenCell.intL n → lengthCoerce c = .ok n) ∧
    (∀ q, c = LenCell.floatL q → lengthCoerce c = .ok (truncRat q)) ∧
    (∀ s, c = LenCell.strL s → pyParseInt s = none →
      lengthCoerce c = .error ("invalid literal for int with base 10: " ++ s)) := by
  refine ⟨?_, ?_, ?_, ?_⟩
  · rintro rfl; rfl
  · rintro n rfl; rfl
  · rintro q rfl; rfl
  · rintro s rfl hp
    simp [lengthCoerce, fillna0, astypeInt, hp]

/-- C7 witness: a missing value becomes 0 and a float-formatted string
raises. -/
theorem c7_length_witness :
    lengthCoerce LenCell.nanL = Except.ok 0 ∧
    lengthCoerce (LenCell.strL "12.5") =
      Except.error ("invalid literal for int with base 10: " ++ "12.5") :=
  ⟨(c7_length_amended LenCell.nanL).1 rfl,
   (c7_length_amended (LenCell.strL "12.5")).2.2.2 "12.5" rfl (by decide)⟩

/-- C10. clean_data returns the value of its first return statement - the
library table - while the cleaned dailies table reaches the caller only
through the in-place mutation of the argument, modelled by the post-state
pair; the second return statement never executes, so the dailies table is
never the return value. -/
theorem c10_cleanData_spec (lib : List LibRawRow) (dl : List DailyRawRow)
    (post : List LibCleanRow × List DailyCleanRow) (ret : List LibCleanRow)
    (h : cleanData lib dl = .ok (post, ret)) :
    ret = post.1 ∧ post.2 = cleanDailies dl ∧ cleanLib lib = .ok post.1 := by
  obtain ⟨postLib, postDl⟩ := post
  unfold cleanData at h
  cases hcl : cleanLib lib with
  | error e => rw [hcl] at h; simp at h
  | ok lib2 =>
    rw [hcl] at h
    simp at h
    obtain ⟨⟨h1, h2⟩, h3⟩ := h
    subst h1
    subst h2
    subst h3
    exact ⟨rfl, rfl, rfl⟩

/-- C10 witness: on a concrete run the caller-visible dailies state is
the cleaned table while the returned value is the library table. -/
theorem c10_cleanData_witness :
    ([c10DailyClean] : List DailyCleanRow) = cleanDailies [c10DailyRaw] ∧
    cleanLib ([] : List LibRawRow) = .ok [] := by
  have h := c10_cleanData_spec [] [c10DailyRaw] ([], [c10DailyClean]) [] rfl
  exact ⟨h.2.1, h.2.2⟩

end Zsr
